import Mathlib

/-
Verification of the forecasting module of the Ethiopia financial-inclusion
repository (src/forecasting.py), as a shallow embedding in Lean 4.

Conventions of the embedding:
  * numpy float arrays become `List ℝ` (trend fitting, which needs sqrt/log)
    or `List ℚ` (scenario and growth-rate arithmetic, which is exact);
    year arrays become `List ℤ`.
  * a Python function that can raise an exception is embedded as a function
    into `Option`; `none` is a raised exception, `some` a returned value.
    Warnings (numpy RankWarning, divide-by-zero RuntimeWarning) are NOT
    exceptions: the module runs `warnings.filterwarnings('ignore')`, and a
    warning never aborts the call, so a call that only warns is `some`.
  * Python dicts with string keys become insertion-ordered association
    lists (`List (String × _)`) with replace-in-place update, matching
    CPython dict semantics.
-/

namespace Forecasting

/-- Values stored in the result dict of `scenario_forecast`: the key
`"years"` holds a list of ints, scenario keys hold lists of floats. -/
inductive PyVal where
  | ints (l : List ℤ)
  | floats (l : List ℚ)
deriving DecidableEq

/-- Python `range(a, b)` as the list of integers `a, a+1, ..., b-1`. -/
def pyRange (a b : ℤ) : List ℤ :=
  (List.range (b - a).toNat).map (fun i : ℕ => a + (i : ℤ))

/-- CPython dict assignment `d[k] = v`: replace in place if the key is
present, otherwise append at the end. -/
def dictInsert (k : String) (v : PyVal) : List (String × PyVal) → List (String × PyVal)
  | [] => [(k, v)]
  | p :: rest => if p.1 = k then (k, v) :: rest else p :: dictInsert k v rest

/-- CPython dict read `d[k]` (first, i.e. only, occurrence). -/
def dictLookup (k : String) : List (String × PyVal) → Option PyVal
  | [] => none
  | p :: rest => if p.1 = k then some p.2 else dictLookup k rest

/-- Inner loop of `scenario_forecast` (forecasting.py lines 136-140):
starting from `value`, once per forecast year do
`value = min(value + annual_growth, 100)` and record it. -/
def scenarioSeq (annual_growth : ℚ) : ℚ → List ℤ → List ℚ
  | _, [] => []
  | value, _ :: rest =>
    let v := min (value + annual_growth) 100
    v :: scenarioSeq annual_growth v rest

/-- Default scenario growth rates (forecasting.py lines 125-130). -/
def defaultScenarios : List (String × ℚ) :=
  [("optimistic", 4.0), ("base", 2.5), ("pessimistic", 1.0)]

/-- Embedding of `scenario_forecast` (forecasting.py lines 99-143).
`target_value` is accepted and ignored, as in the source. -/
def scenario_forecast (current_value : ℚ) (target_value : ℚ) (target_year : ℤ)
    (current_year : ℤ) (scenarios : Option (List (String × ℚ))) : List (String × PyVal) :=
  let scens := scenarios.getD defaultScenarios
  let forecast_years := pyRange (current_year + 1) (target_year + 1)
  scens.foldl
    (fun results p =>
      dictInsert p.1 (PyVal.floats (scenarioSeq p.2 current_value forecast_years)) results)
    [("years", PyVal.ints forecast_years)]

/-- One row of the DataFrame built by `calculate_growth_rates`
(forecasting.py lines 168-176). -/
structure GrowthRow where
  period_start : ℤ
  period_end : ℤ
  period_years : ℤ
  start_value : ℚ
  end_value : ℚ
  total_growth_pp : ℚ
  annual_growth_pp : ℚ
deriving DecidableEq

/-- Row built from one consecutive pair (forecasting.py lines 164-176).
Note `annual_growth_pp` uses exact division; the source divides floats,
and the claims about it only concern strictly increasing years, where the
divisor is a nonzero integer. -/
def mkGrowthRow (y0 y1 : ℤ) (v0 v1 : ℚ) : GrowthRow :=
  { period_start := y0
    period_end := y1
    period_years := y1 - y0
    start_value := v0
    end_value := v1
    total_growth_pp := v1 - v0
    annual_growth_pp := (v1 - v0) / ((y1 - y0 : ℤ) : ℚ) }

/-- The loop of `calculate_growth_rates` over consecutive (year, value)
pairs (forecasting.py lines 163-176). -/
def growthRows : List (ℤ × ℚ) → List GrowthRow
  | [] => []
  | [_] => []
  | p0 :: p1 :: rest => mkGrowthRow p0.1 p1.1 p0.2 p1.2 :: growthRows (p1 :: rest)

/-- Embedding of `calculate_growth_rates` (forecasting.py lines 146-178).
The loop runs `i = 1 .. len(years)-1` and indexes `values[i]`; when
`values` is shorter than `years` and the loop body runs, Python raises an
IndexError, embedded as `none`. Otherwise the rows are exactly the rows
over consecutive pairs of the zipped lists (extra `values` entries beyond
`len(years)` are never read, which `zip` models by truncation). -/
def calculate_growth_rates (years : List ℤ) (values : List ℚ) : Option (List GrowthRow) :=
  if 2 ≤ years.length ∧ values.length < years.length then none
  else some (growthRows (years.zip values))

/-- numpy `arr.mean()`: sum divided by length. -/
noncomputable def npMean (l : List ℝ) : ℝ := l.sum / l.length

/-- numpy `np.std(arr)` with the default `ddof=0`: the population standard
deviation, i.e. the square root of the mean squared deviation from the
mean. -/
noncomputable def npStd (l : List ℝ) : ℝ :=
  Real.sqrt ((l.map (fun v => (v - npMean l) ^ 2)).sum / l.length)

/-- Slope returned by `np.polyfit(x, y, 1)` on full-rank input: the unique
least-squares solution, in closed form. On rank-deficient input (all `x`
equal) numpy instead returns a minimum-norm least-squares solution and
emits a RankWarning (suppressed by the module's warnings filter); this
formula then divides by zero. No theorem below depends on the numeric
value in that degenerate case, only on the fact that numpy returns a value
rather than raising. -/
noncomputable def pSlope (x y : List ℝ) : ℝ :=
  ((x.zip y).map (fun p => (p.1 - npMean x) * (p.2 - npMean y))).sum /
    (x.map (fun a => (a - npMean x) ^ 2)).sum

/-- Intercept returned by `np.polyfit(x, y, 1)` on full-rank input. -/
noncomputable def pIntercept (x y : List ℝ) : ℝ :=
  npMean y - pSlope x y * npMean x

/-- Embedding of `np.polyfit(x, y, 1)`. numpy raises a TypeError when `x`
is empty or when `x` and `y` have different lengths; otherwise it returns
least-squares coefficients (see `pSlope`). -/
noncomputable def polyfit1 (x y : List ℝ) : Option (ℝ × ℝ) :=
  match x with
  | [] => none
  | _ :: _ =>
    if x.length = y.length then some (pSlope x y, pIntercept x y) else none

/-- Embedding of `linear_trend_forecast` (forecasting.py lines 13-52). -/
noncomputable def linear_trend_forecast (years : List ℤ) (values : List ℝ)
    (forecast_years : List ℤ) : Option (List ℝ × List ℝ × List ℝ) :=
  match polyfit1 (years.map (fun t : ℤ => (t : ℝ))) values with
  | none => none
  | some (slope, intercept) =>
    let forecast := forecast_years.map (fun y : ℤ => slope * (y : ℝ) + intercept)
    let fitted := years.map (fun t : ℤ => slope * (t : ℝ) + intercept)
    let residuals := List.zipWith (fun a b => a - b) values fitted
    let std_error := npStd residuals
    let ymean := npMean (years.map (fun t : ℤ => (t : ℝ)))
    let sxx := (years.map (fun t : ℤ => ((t : ℝ) - ymean) ^ 2)).sum
    let margin := forecast_years.map (fun y : ℤ =>
      1.96 * std_error * Real.sqrt (1 + 1 / (years.length : ℝ) + ((y : ℝ) - ymean) ^ 2 / sxx))
    some (forecast, List.zipWith (fun a b => a - b) forecast margin,
      List.zipWith (fun a b => a + b) forecast margin)

/-- The log-time transform of `log_trend_forecast`: with `b` the minimum
historical year, a year `t` maps to `np.log1p(t - b + 1)`, i.e.
`log(1 + ((t - b) + 1))`. -/
noncomputable def logT (b : ℤ) (t : ℤ) : ℝ :=
  Real.log (1 + ((t : ℝ) - (b : ℝ) + 1))

/-- Minimum of the year list (`years.min()` in numpy); raises on an empty
array, which `log_trend_forecast` models by matching on the list first. -/
def minYear (y0 : ℤ) (ytl : List ℤ) : ℤ := ytl.foldl min y0

/-- Embedding of `log_trend_forecast` (forecasting.py lines 55-96). -/
noncomputable def log_trend_forecast (years : List ℤ) (values : List ℝ)
    (forecast_years : List ℤ) : Option (List ℝ × List ℝ × List ℝ) :=
  match years with
  | [] => none
  | y0 :: ytl =>
    let base_year := minYear y0 ytl
    let log_years := (y0 :: ytl).map (logT base_year)
    let log_forecast_years := forecast_years.map (logT base_year)
    match polyfit1 log_years values with
    | none => none
    | some (slope, intercept) =>
      let forecast := log_forecast_years.map (fun ly => slope * ly + intercept)
      let fitted := log_years.map (fun ly => slope * ly + intercept)
      let residuals := List.zipWith (fun a b => a - b) values fitted
      let std_error := npStd residuals
      let margin := 1.96 * std_error
      some (forecast, forecast.map (fun v => v - margin), forecast.map (fun v => v + margin))

/-- Sum of squared errors of the affine model `v = a*x + b` over paired
data, the objective that "fit by ordinary least squares" minimizes (this
definition follows the specification's words; the code's counterpart is
the closed form in `pSlope`/`pIntercept`). -/
noncomputable def sse (x y : List ℝ) (a b : ℝ) : ℝ :=
  ((x.zip y).map (fun p => (p.2 - (a * p.1 + b)) ^ 2)).sum

/-- An observation date, with pandas timestamps modelled as a year and an
opaque within-year key ordered lexicographically; `.dt.year` reads the
first component. -/
structure ObsDate where
  year : ℤ
  dayKey : ℤ
deriving DecidableEq

/-- One row of the unified dataset consumed by `forecast_access_usage`
(only the columns it reads). -/
structure DfRow where
  record_type : String
  indicator_code : String
  observation_date : ObsDate
  value_numeric : ℝ

/-- Lexicographic date comparison used to sort observation rows. -/
def dateLe (d1 d2 : ObsDate) : Bool :=
  d1.year < d2.year || (d1.year = d2.year && d1.dayKey ≤ d2.dayKey)

/-- Insertion of a row into a date-sorted list. -/
def insertByDate (r : DfRow) : List DfRow → List DfRow
  | [] => [r]
  | s :: rest =>
    if dateLe r.observation_date s.observation_date then r :: s :: rest
    else s :: insertByDate r rest

/-- pandas `sort_values('observation_date')`: sorts rows by date. The
claims below depend only on the row multiset and count, not on the
particular sorting algorithm. -/
def sortByDate : List DfRow → List DfRow
  | [] => []
  | r :: rest => insertByDate r (sortByDate rest)

/-- Rows of the unified dataset selected for one indicator, in date order:
`df[df['record_type'] == 'observation']` filtered to the indicator code
and sorted by observation date (forecasting.py lines 197, 202, 231). -/
def obsSeries (code : String) (df : List DfRow) : List DfRow :=
  sortByDate ((df.filter (fun r => r.record_type == "observation")).filter
    (fun r => r.indicator_code == code))

/-- The per-indicator entry built by `forecast_access_usage`
(forecasting.py lines 212-228 and 239-255). -/
structure IndicatorForecast where
  indicator : String
  code : String
  current_value : ℝ
  current_year : ℤ
  historical_years : List ℤ
  historical_values : List ℝ
  forecast_years : List ℤ
  linear_forecast : List ℝ
  linear_lower : List ℝ
  linear_upper : List ℝ
  log_forecast : List ℝ
  log_lower : List ℝ
  log_upper : List ℝ
  target : ℝ
  target_year : ℤ

/-- Result dict of `forecast_access_usage`: the possible keys are exactly
'access' (always written) and 'usage' (written only when the usage series
has at least 2 rows), modelled as a structure with an optional field. -/
structure AccessUsage where
  access : IndicatorForecast
  usage : Option IndicatorForecast

/-- Embedding of `forecast_access_usage` (forecasting.py lines 181-257).
Python evaluates the forecasts before building each entry, so an exception
from either fitter (empty ownership series) propagates, modelled by the
outer `none` branches; `acc_values[-1]` is read only after the fits
succeed, hence on a nonempty list, which `getLastD` models. The inner
`none` branch is unreachable (a usage series of length at least 2 always
fits) but mirrors exception propagation. -/
noncomputable def forecast_access_usage (df : List DfRow) (forecast_years : List ℤ) :
    Option AccessUsage :=
  let acc_data := obsSeries "ACC_OWNERSHIP" df
  let acc_years := acc_data.map (fun r => r.observation_date.year)
  let acc_values := acc_data.map (fun r => r.value_numeric)
  match linear_trend_forecast acc_years acc_values forecast_years,
      log_trend_forecast acc_years acc_values forecast_years with
  | some (acc_linear, acc_lower, acc_upper), some (acc_log, acc_log_lower, acc_log_upper) =>
    let access : IndicatorForecast :=
      { indicator := "Account Ownership Rate"
        code := "ACC_OWNERSHIP"
        current_value := acc_values.getLastD 0
        current_year := acc_years.getLastD 0
        historical_years := acc_years
        historical_values := acc_values
        forecast_years := forecast_years
        linear_forecast := acc_linear
        linear_lower := acc_lower
        linear_upper := acc_upper
        log_forecast := acc_log
        log_lower := acc_log_lower
        log_upper := acc_log_upper
        target := 60.0
        target_year := 2025 }
    let usg_data := obsSeries "USG_DIGITAL_PAYMENT" df
    if 2 ≤ usg_data.length then
      let usg_years := usg_data.map (fun r => r.observation_date.year)
      let usg_values := usg_data.map (fun r => r.value_numeric)
      match linear_trend_forecast usg_years usg_values forecast_years,
          log_trend_forecast usg_years usg_values forecast_years with
      | some (usg_linear, usg_lower, usg_upper),
          some (usg_log, usg_log_lower, usg_log_upper) =>
        some
          { access := access
            usage := some
              { indicator := "Digital Payment Adoption"
                code := "USG_DIGITAL_PAYMENT"
                current_value := usg_values.getLastD 0
                current_year := usg_years.getLastD 0
                historical_years := usg_years
                historical_values := usg_values
                forecast_years := forecast_years
                linear_forecast := usg_linear
                linear_lower := usg_lower
                linear_upper := usg_upper
                log_forecast := usg_log
                log_lower := usg_log_lower
                log_upper := usg_log_upper
                target := 50.0
                target_year := 2025 } }
      | _, _ => none
    else some { access := access, usage := none }
  | _, _ => none

/-- Residuals of the fitted line of `linear_trend_forecast`: observed
minus fitted values over the historical points. -/
noncomputable def linResiduals (years : List ℤ) (values : List ℝ) : List ℝ :=
  List.zipWith (fun a b => a - b) values
    (years.map (fun t : ℤ => pSlope (years.map (fun u : ℤ => (u : ℝ))) values * (t : ℝ)
      + pIntercept (years.map (fun u : ℤ => (u : ℝ))) values))

/-- The per-year 95% margin of `linear_trend_forecast`:
`1.96 * std_error * sqrt(1 + 1/n + (y - mean(years))^2 / sum((years - mean(years))^2))`. -/
noncomputable def linMargin (years : List ℤ) (values : List ℝ) (y : ℤ) : ℝ :=
  1.96 * npStd (linResiduals years values)
    * Real.sqrt (1 + 1 / (years.length : ℝ)
        + ((y : ℝ) - npMean (years.map (fun t : ℤ => (t : ℝ)))) ^ 2
          / (years.map (fun t : ℤ =>
              ((t : ℝ) - npMean (years.map (fun u : ℤ => (u : ℝ)))) ^ 2)).sum)

/-- The minimum year used as base of the log transform, as a total
function of the year list (`0` is junk for the empty list, which the
fitter rejects before reading it). -/
def logBase : List ℤ → ℤ
  | [] => 0
  | y0 :: ytl => minYear y0 ytl

/-- Historical years in transformed log coordinates. -/
noncomputable def logXs (years : List ℤ) : List ℝ := years.map (logT (logBase years))

/-- Residuals of the fitted line of `log_trend_forecast` in transformed
coordinates. -/
noncomputable def logResiduals (years : List ℤ) (values : List ℝ) : List ℝ :=
  List.zipWith (fun a b => a - b) values
    ((logXs years).map (fun ly => pSlope (logXs years) values * ly
      + pIntercept (logXs years) values))

/-- The fixed margin of `log_trend_forecast`: `1.96 * std_error`, the same
for every forecast year. -/
noncomputable def logMargin (years : List ℤ) (values : List ℝ) : ℝ :=
  1.96 * npStd (logResiduals years values)

/-- A dict value that is an empty Python list (of either element type). -/
def PyVal.isEmptyList : PyVal → Prop
  | PyVal.ints l => l = []
  | PyVal.floats l => l = []

section SumLemmas

/-- A mapped list sum as a `Finset.range` sum over positions. -/
lemma sum_map_getD {α : Type} (l : List α) (f : α → ℝ) (d : α) :
    (l.map f).sum = ∑ i in Finset.range l.length, f (l.getD i d) := by
  induction l with
  | nil => simp
  | cons a t ih =>
    rw [List.map_cons, List.sum_cons, List.length_cons, Finset.sum_range_succ']
    simp only [List.getD_cons_succ, List.getD_cons_zero, ih]
    ring

/-- A mapped zip sum as a `Finset.range` sum over positions. -/
lemma sum_map_zip {α β : Type} (f : α → β → ℝ) (dx : α) (dy : β) (x : List α) :
    ∀ y : List β, x.length = y.length →
      ((x.zip y).map (fun p => f p.1 p.2)).sum
        = ∑ i in Finset.range x.length, f (x.getD i dx) (y.getD i dy) := by
  induction x with
  | nil => intro y h; simp
  | cons a x ih =>
    intro y h
    cases y with
    | nil => simp at h
    | cons b y =>
      have h' : x.length = y.length := by simpa using h
      rw [List.zip_cons_cons, List.map_cons, List.sum_cons, List.length_cons,
        Finset.sum_range_succ']
      simp only [List.getD_cons_succ, List.getD_cons_zero, ih y h']
      ring

/-- Deviations from the mean sum to zero. -/
lemma sum_sub_mean (n : ℕ) (hn : 0 < n) (X : ℕ → ℝ) :
    ∑ i in Finset.range n, (X i - (∑ j in Finset.range n, X j) / n) = 0 := by
  have hn' : (n : ℝ) ≠ 0 := Nat.cast_ne_zero.mpr hn.ne'
  rw [Finset.sum_sub_distrib, Finset.sum_const, Finset.card_range, nsmul_eq_mul]
  field_simp

/-- Expansion of the sum of squared errors of an arbitrary affine model
around the data means. -/
lemma sse_expand (n : ℕ) (X Y : ℕ → ℝ) (xm ym a b : ℝ)
    (hx : ∑ i in Finset.range n, (X i - xm) = 0)
    (hy : ∑ i in Finset.range n, (Y i - ym) = 0) :
    ∑ i in Finset.range n, (Y i - (a * X i + b)) ^ 2
      = (∑ i in Finset.range n, (Y i - ym) ^ 2)
        - 2 * a * (∑ i in Finset.range n, (X i - xm) * (Y i - ym))
        + a ^ 2 * (∑ i in Finset.range n, (X i - xm) ^ 2)
        + n * (ym - a * xm - b) ^ 2 := by
  have key : ∀ i ∈ Finset.range n,
      (Y i - (a * X i + b)) ^ 2
        = (Y i - ym) ^ 2 - 2 * a * ((X i - xm) * (Y i - ym)) + a ^ 2 * (X i - xm) ^ 2
          + 2 * (ym - a * xm - b) * (Y i - ym)
          - 2 * a * (ym - a * xm - b) * (X i - xm)
          + (ym - a * xm - b) ^ 2 := fun i _ => by ring
  rw [Finset.sum_congr rfl key]
  simp only [Finset.sum_add_distrib, Finset.sum_sub_distrib, ← Finset.mul_sum, hx, hy,
    Finset.sum_const, Finset.card_range, nsmul_eq_mul]
  ring

/-- The closed-form slope and intercept minimize the sum of squared
errors among all affine models of the data. -/
lemma sse_min_core (n : ℕ) (X Y : ℕ → ℝ) (xm ym s : ℝ)
    (hx : ∑ i in Finset.range n, (X i - xm) = 0)
    (hy : ∑ i in Finset.range n, (Y i - ym) = 0)
    (hs : s * (∑ i in Finset.range n, (X i - xm) ^ 2)
      = ∑ i in Finset.range n, (X i - xm) * (Y i - ym))
    (a b : ℝ) :
    ∑ i in Finset.range n, (Y i - (s * X i + (ym - s * xm))) ^ 2
      ≤ ∑ i in Finset.range n, (Y i - (a * X i + b)) ^ 2 := by
  have hSxx : 0 ≤ ∑ i in Finset.range n, (X i - xm) ^ 2 :=
    Finset.sum_nonneg fun i _ => sq_nonneg _
  rw [sse_expand n X Y xm ym s (ym - s * xm) hx hy, sse_expand n X Y xm ym a b hx hy, ← hs]
  have h1 : 0 ≤ (∑ i in Finset.range n, (X i - xm) ^ 2) * (a - s) ^ 2 :=
    mul_nonneg hSxx (sq_nonneg _)
  have h2 : 0 ≤ (n : ℝ) * (ym - a * xm - b) ^ 2 :=
    mul_nonneg (Nat.cast_nonneg n) (sq_nonneg _)
  nlinarith [h1, h2]

/-- Two distinct data points force a positive centered sum of squares. -/
lemma sxx_pos (n : ℕ) (X : ℕ → ℝ) (xm : ℝ) (i j : ℕ) (hi : i < n) (hj : j < n)
    (hne : X i ≠ X j) : 0 < ∑ k in Finset.range n, (X k - xm) ^ 2 := by
  have hnn : ∀ k ∈ Finset.range n, 0 ≤ (X k - xm) ^ 2 := fun k _ => sq_nonneg _
  rcases (Finset.sum_nonneg hnn).lt_or_eq with h | h
  · exact h
  · exfalso
    have h0 := (Finset.sum_eq_zero_iff_of_nonneg hnn).mp h.symm
    have hXi : X i = xm := by
      have hz := h0 i (Finset.mem_range.mpr hi)
      have := pow_eq_zero_iff (by norm_num : (2:ℕ) ≠ 0) |>.mp hz
      linarith [sub_eq_zero.mp this]
    have hXj : X j = xm := by
      have hz := h0 j (Finset.mem_range.mpr hj)
      have := pow_eq_zero_iff (by norm_num : (2:ℕ) ≠ 0) |>.mp hz
      linarith [sub_eq_zero.mp this]
    exact hne (hXi.trans hXj.symm)

/-- numpy mean as a `Finset.range` sum over positions. -/
lemma npMean_eq (l : List ℝ) :
    npMean l = (∑ i in Finset.range l.length, l.getD i 0) / l.length := by
  have h := sum_map_getD l (fun a => a) 0
  simp only [List.map_id'] at h
  rw [npMean, h]

end SumLemmas

section FitLemmas

/-- On a nonempty list of matching length, `polyfit1` returns the closed
form coefficients. -/
lemma polyfit1_eq (x y : List ℝ) (hx : x ≠ []) (h : x.length = y.length) :
    polyfit1 x y = some (pSlope x y, pIntercept x y) := by
  cases x with
  | nil => exact absurd rfl hx
  | cons a t => simp [polyfit1, h]

/-- The coefficients returned by `polyfit1` minimize the sum of squared
errors, provided the independent variable takes two distinct values. -/
lemma sse_pfit_min (x y : List ℝ) (hlen : x.length = y.length)
    (hd : ∃ i j, i < x.length ∧ j < x.length ∧ x.getD i 0 ≠ x.getD j 0) (a b : ℝ) :
    sse x y (pSlope x y) (pIntercept x y) ≤ sse x y a b := by
  obtain ⟨i, j, hi, hj, hij⟩ := hd
  have hn0 : 0 < x.length := lt_of_le_of_lt (Nat.zero_le i) hi
  have hx0 : ∑ k in Finset.range x.length, (x.getD k 0 - npMean x) = 0 := by
    rw [npMean_eq]
    exact sum_sub_mean x.length hn0 (fun k => x.getD k 0)
  have hy0 : ∑ k in Finset.range x.length, (y.getD k 0 - npMean y) = 0 := by
    rw [npMean_eq, ← hlen]
    exact sum_sub_mean x.length hn0 (fun k => y.getD k 0)
  have hSxx_eq : (x.map (fun v => (v - npMean x) ^ 2)).sum
      = ∑ k in Finset.range x.length, (x.getD k 0 - npMean x) ^ 2 :=
    sum_map_getD x _ 0
  have hSxy_eq : ((x.zip y).map (fun p => (p.1 - npMean x) * (p.2 - npMean y))).sum
      = ∑ k in Finset.range x.length, (x.getD k 0 - npMean x) * (y.getD k 0 - npMean y) :=
    sum_map_zip (fun u v => (u - npMean x) * (v - npMean y)) 0 0 x y hlen
  have hSxx_pos : 0 < ∑ k in Finset.range x.length, (x.getD k 0 - npMean x) ^ 2 :=
    sxx_pos x.length (fun k => x.getD k 0) (npMean x) i j hi hj hij
  have hslope : pSlope x y * (∑ k in Finset.range x.length, (x.getD k 0 - npMean x) ^ 2)
      = ∑ k in Finset.range x.length, (x.getD k 0 - npMean x) * (y.getD k 0 - npMean y) := by
    rw [pSlope, hSxx_eq, hSxy_eq, div_mul_cancel₀]
    exact hSxx_pos.ne'
  have hsse1 : sse x y (pSlope x y) (pIntercept x y)
      = ∑ k in Finset.range x.length,
          (y.getD k 0 - (pSlope x y * x.getD k 0 + (npMean y - pSlope x y * npMean x))) ^ 2 := by
    rw [sse, pIntercept]
    exact sum_map_zip
      (fun u v => (v - (pSlope x y * u + (npMean y - pSlope x y * npMean x))) ^ 2) 0 0 x y hlen
  have hsse2 : sse x y a b
      = ∑ k in Finset.range x.length, (y.getD k 0 - (a * x.getD k 0 + b)) ^ 2 := by
    rw [sse]
    exact sum_map_zip (fun u v => (v - (a * u + b)) ^ 2) 0 0 x y hlen
  rw [hsse1, hsse2]
  exact sse_min_core x.length (fun k => x.getD k 0) (fun k => y.getD k 0)
    (npMean x) (npMean y) (pSlope x y) hx0 hy0 hslope a b

/-- Structural description of a successful `linear_trend_forecast` call:
point forecasts are the fitted line at the forecast years, the bounds are
the forecasts shifted by the per-year margin. -/
lemma linear_eq (years : List ℤ) (values : List ℝ) (fys : List ℤ)
    (hne : years ≠ []) (hlen : years.length = values.length) :
    linear_trend_forecast years values fys = some
      (fys.map (fun y : ℤ => pSlope (years.map (fun t : ℤ => (t : ℝ))) values * (y : ℝ)
        + pIntercept (years.map (fun t : ℤ => (t : ℝ))) values),
       fys.map (fun y : ℤ => pSlope (years.map (fun t : ℤ => (t : ℝ))) values * (y : ℝ)
        + pIntercept (years.map (fun t : ℤ => (t : ℝ))) values - linMargin years values y),
       fys.map (fun y : ℤ => pSlope (years.map (fun t : ℤ => (t : ℝ))) values * (y : ℝ)
        + pIntercept (years.map (fun t : ℤ => (t : ℝ))) values + linMargin years values y)) := by
  have hxne : years.map (fun t : ℤ => (t : ℝ)) ≠ [] :=
    fun h => hne (List.map_eq_nil_iff.mp h)
  have hxlen : (years.map (fun t : ℤ => (t : ℝ))).length = values.length := by
    simpa using hlen
  simp only [linear_trend_forecast]
  rw [polyfit1_eq _ _ hxne hxlen]
  simp only [List.zipWith_map, List.zipWith_same, linMargin, linResiduals]

/-- Structural description of a successful `log_trend_forecast` call:
point forecasts are the fitted line at the log-transformed forecast years,
the bounds are the forecasts shifted by the fixed margin. -/
lemma log_eq (years : List ℤ) (values : List ℝ) (fys : List ℤ)
    (hne : years ≠ []) (hlen : years.length = values.length) :
    log_trend_forecast years values fys = some
      (fys.map (fun y => pSlope (logXs years) values * logT (logBase years) y
        + pIntercept (logXs years) values),
       fys.map (fun y => pSlope (logXs years) values * logT (logBase years) y
        + pIntercept (logXs years) values - logMargin years values),
       fys.map (fun y => pSlope (logXs years) values * logT (logBase years) y
        + pIntercept (logXs years) values + logMargin years values)) := by
  cases years with
  | nil => exact absurd rfl hne
  | cons y0 ytl =>
    have hxne : (y0 :: ytl).map (logT (minYear y0 ytl)) ≠ [] := by simp
    have hxlen : ((y0 :: ytl).map (logT (minYear y0 ytl))).length = values.length := by
      simpa using hlen
    simp only [log_trend_forecast]
    rw [polyfit1_eq _ _ hxne hxlen]
    simp only [List.map_map, Function.comp, logMargin, logResiduals, logXs, logBase]
    rfl

/-- The numpy standard deviation is nonnegative. -/
lemma npStd_nonneg (l : List ℝ) : 0 ≤ npStd l := Real.sqrt_nonneg _

/-- The linear model's per-year margin is nonnegative. -/
lemma linMargin_nonneg (years : List ℤ) (values : List ℝ) (y : ℤ) :
    0 ≤ linMargin years values y :=
  mul_nonneg (mul_nonneg (by norm_num) (npStd_nonneg _)) (Real.sqrt_nonneg _)

/-- The log model's fixed margin is nonnegative. -/
lemma logMargin_nonneg (years : List ℤ) (values : List ℝ) :
    0 ≤ logMargin years values :=
  mul_nonneg (by norm_num) (npStd_nonneg _)

/-- Subtracting a pointwise-nonnegative margin gives a pointwise lower
list. -/
lemma forall₂_map_sub_le (f m : ℤ → ℝ) (hm : ∀ y, 0 ≤ m y) (l : List ℤ) :
    List.Forall₂ (fun a b => a ≤ b) (l.map (fun y => f y - m y)) (l.map f) := by
  induction l with
  | nil => exact List.Forall₂.nil
  | cons a t ih => exact List.Forall₂.cons (sub_le_self _ (hm a)) ih

/-- Adding a pointwise-nonnegative margin gives a pointwise upper list. -/
lemma forall₂_map_le_add (f m : ℤ → ℝ) (hm : ∀ y, 0 ≤ m y) (l : List ℤ) :
    List.Forall₂ (fun a b => a ≤ b) (l.map f) (l.map (fun y => f y + m y)) := by
  induction l with
  | nil => exact List.Forall₂.nil
  | cons a t ih => exact List.Forall₂.cons (le_add_of_nonneg_right (hm a)) ih

end FitLemmas

section DictLemmas

/-- Looking up a freshly assigned key yields the assigned value. -/
lemma dictLookup_insert_self (k : String) (v : PyVal) (d : List (String × PyVal)) :
    dictLookup k (dictInsert k v d) = some v := by
  induction d with
  | nil => simp [dictInsert, dictLookup]
  | cons p rest ih =>
    by_cases h : p.1 = k
    · simp [dictInsert, dictLookup, h]
    · simp [dictInsert, dictLookup, h, ih]

/-- Assigning one key leaves lookups of other keys unchanged. -/
lemma dictLookup_insert_ne (k k' : String) (v : PyVal) (d : List (String × PyVal))
    (h : k ≠ k') : dictLookup k (dictInsert k' v d) = dictLookup k d := by
  have h' : ¬k' = k := fun hh => h hh.symm
  induction d with
  | nil => simp [dictInsert, dictLookup, h']
  | cons p rest ih =>
    by_cases h1 : p.1 = k'
    · simp [dictInsert, dictLookup, h1, h']
    · by_cases h2 : p.1 = k
      · simp [dictInsert, dictLookup, h1, h2, h, h']
      · simp [dictInsert, dictLookup, h1, h2, ih]

/-- Assigning a fresh key appends it to the key list. -/
lemma keys_insert_not_mem (k : String) (v : PyVal) (d : List (String × PyVal))
    (h : k ∉ d.map Prod.fst) :
    (dictInsert k v d).map Prod.fst = d.map Prod.fst ++ [k] := by
  induction d with
  | nil => simp [dictInsert]
  | cons p rest ih =>
    have h1 : p.1 ≠ k := fun hh => h (by simp [hh])
    have h2 : k ∉ rest.map Prod.fst := fun hh => h (by simp [hh])
    simp [dictInsert, h1, ih h2]

/-- Assigning a fresh key grows the dict by one entry. -/
lemma length_insert_not_mem (k : String) (v : PyVal) (d : List (String × PyVal))
    (h : k ∉ d.map Prod.fst) : (dictInsert k v d).length = d.length + 1 := by
  have := congrArg List.length (keys_insert_not_mem k v d h)
  simpa using this

/-- Every entry of an updated dict is the new binding or an old entry. -/
lemma mem_dictInsert (p : String × PyVal) (k : String) (v : PyVal)
    (d : List (String × PyVal)) (hp : p ∈ dictInsert k v d) : p = (k, v) ∨ p ∈ d := by
  induction d with
  | nil => simpa [dictInsert] using hp
  | cons q rest ih =>
    by_cases h : q.1 = k
    · rcases by simpa [dictInsert, h] using hp with h1 | h1
      · exact Or.inl h1
      · exact Or.inr (List.mem_cons_of_mem _ h1)
    · rcases by simpa [dictInsert, h] using hp with h1 | h1
      · exact Or.inr (List.mem_cons.mpr (Or.inl h1))
      · rcases ih h1 with h2 | h2
        · exact Or.inl h2
        · exact Or.inr (List.mem_cons_of_mem _ h2)

/-- A key present before an assignment is present after it. -/
lemma lookup_isSome_insert (k k' : String) (v : PyVal) (d : List (String × PyVal))
    (h : (dictLookup k d).isSome = true) :
    (dictLookup k (dictInsert k' v d)).isSome = true := by
  by_cases hk : k = k'
  · subst hk; simp [dictLookup_insert_self]
  · rwa [dictLookup_insert_ne k k' v d hk]

/-- Folding assignments over keys not containing `k` leaves lookup of `k`
unchanged. -/
lemma lookup_foldl_not_mem (V : String × ℚ → PyVal) (k : String) :
    ∀ (scens : List (String × ℚ)) (init : List (String × PyVal)),
      k ∉ scens.map Prod.fst →
      dictLookup k (scens.foldl (fun res q => dictInsert q.1 (V q) res) init)
        = dictLookup k init := by
  intro scens
  induction scens with
  | nil => intro init _; rfl
  | cons q rest ih =>
    intro init hk
    have hk1 : k ≠ q.1 := fun hh => hk (by simp [hh])
    have hk2 : k ∉ rest.map Prod.fst := fun hh => hk (by simp [hh])
    rw [List.foldl_cons, ih _ hk2, dictLookup_insert_ne k q.1 (V q) init hk1]

/-- With pairwise-distinct keys, folding the assignments makes each
scenario key map to its own value. -/
lemma lookup_foldl_mem (V : String × ℚ → PyVal) :
    ∀ (scens : List (String × ℚ)) (init : List (String × PyVal)),
      (scens.map Prod.fst).Nodup → ∀ p ∈ scens,
      dictLookup p.1 (scens.foldl (fun res q => dictInsert q.1 (V q) res) init)
        = some (V p) := by
  intro scens
  induction scens with
  | nil => intro init _ p hp; exact absurd hp (List.not_mem_nil p)
  | cons q rest ih =>
    intro init hnd p hp
    have hnd' : (rest.map Prod.fst).Nodup := (List.nodup_cons.mp (by simpa using hnd)).2
    rcases List.mem_cons.mp hp with h | h
    · subst h
      have hq : p.1 ∉ rest.map Prod.fst := (List.nodup_cons.mp (by simpa using hnd)).1
      rw [List.foldl_cons, lookup_foldl_not_mem V p.1 rest _ hq, dictLookup_insert_self]
    · rw [List.foldl_cons]
      exact ih _ hnd' p h

/-- Folding assignments of pairwise-distinct fresh keys grows the dict by
one entry per key. -/
lemma length_foldl (V : String × ℚ → PyVal) :
    ∀ (scens : List (String × ℚ)) (init : List (String × PyVal)),
      (scens.map Prod.fst).Nodup →
      (∀ k ∈ scens.map Prod.fst, k ∉ init.map Prod.fst) →
      (scens.foldl (fun res q => dictInsert q.1 (V q) res) init).length
        = init.length + scens.length := by
  intro scens
  induction scens with
  | nil => intro init _ _; rfl
  | cons q rest ih =>
    intro init hnd hdisj
    have hq : q.1 ∉ init.map Prod.fst := hdisj q.1 (by simp)
    have hnd' : (rest.map Prod.fst).Nodup := (List.nodup_cons.mp (by simpa using hnd)).2
    have hqrest : q.1 ∉ rest.map Prod.fst := (List.nodup_cons.mp (by simpa using hnd)).1
    have hdisj' : ∀ k ∈ rest.map Prod.fst, k ∉ (dictInsert q.1 (V q) init).map Prod.fst := by
      intro k hk
      rw [keys_insert_not_mem q.1 (V q) init hq]
      intro hmem
      rcases List.mem_append.mp hmem with h | h
      · exact hdisj k (by simp [hk]) h
      · have : k = q.1 := by simpa using h
        exact hqrest (this ▸ hk)
    rw [List.foldl_cons, ih _ hnd' hdisj', length_insert_not_mem q.1 (V q) init hq]
    simp [List.length_cons]
    omega

/-- Every entry of the folded dict is an initial entry or one of the
assigned bindings. -/
lemma mem_foldl (V : String × ℚ → PyVal) :
    ∀ (scens : List (String × ℚ)) (init : List (String × PyVal)) (p : String × PyVal),
      p ∈ scens.foldl (fun res q => dictInsert q.1 (V q) res) init →
      p ∈ init ∨ ∃ q ∈ scens, p = (q.1, V q) := by
  intro scens
  induction scens with
  | nil => intro init p hp; exact Or.inl hp
  | cons q rest ih =>
    intro init p hp
    rw [List.foldl_cons] at hp
    rcases ih _ p hp with h | h
    · rcases mem_dictInsert p q.1 (V q) init h with h1 | h1
      · exact Or.inr ⟨q, by simp, h1⟩
      · exact Or.inl h1
    · obtain ⟨r, hr, hpr⟩ := h
      exact Or.inr ⟨r, by simp [hr], hpr⟩

/-- A key present initially stays present through the fold. -/
lemma lookup_isSome_foldl (V : String × ℚ → PyVal) (k : String) :
    ∀ (scens : List (String × ℚ)) (init : List (String × PyVal)),
      (dictLookup k init).isSome = true →
      (dictLookup k (scens.foldl (fun res q => dictInsert q.1 (V q) res) init)).isSome
        = true := by
  intro scens
  induction scens with
  | nil => intro init h; exact h
  | cons q rest ih =>
    intro init h
    rw [List.foldl_cons]
    exact ih _ (lookup_isSome_insert k q.1 (V q) init h)

end DictLemmas

section ScenarioLemmas

/-- Membership in a Python integer range. -/
lemma pyRange_mem (a b k : ℤ) : k ∈ pyRange a b ↔ a ≤ k ∧ k < b := by
  simp only [pyRange, List.mem_map, List.mem_range]
  constructor
  · rintro ⟨i, hi, rfl⟩
    omega
  · rintro ⟨h1, h2⟩
    exact ⟨(k - a).toNat, by omega, by omega⟩

/-- An empty Python range. -/
lemma pyRange_eq_nil (a b : ℤ) (h : b ≤ a) : pyRange a b = [] := by
  have h0 : (b - a).toNat = 0 := by omega
  simp [pyRange, h0]

/-- One scenario value per forecast year. -/
lemma scenarioSeq_length (g : ℚ) : ∀ (v : ℚ) (l : List ℤ),
    (scenarioSeq g v l).length = l.length := by
  intro v l
  induction l generalizing v with
  | nil => rfl
  | cons a t ih => simp [scenarioSeq, ih]

/-- The recurrence of the scenario sequence: every value is the previous
value (the start value at position 0) plus the growth rate, clamped at
100. -/
lemma scenarioSeq_getD (g : ℚ) : ∀ (v : ℚ) (l : List ℤ) (i : ℕ), i < l.length →
    (scenarioSeq g v l).getD i 0
      = min ((if i = 0 then v else (scenarioSeq g v l).getD (i - 1) 0) + g) 100 := by
  intro v l
  induction l generalizing v with
  | nil => intro i hi; exact absurd hi (by simp)
  | cons a t ih =>
    intro i hi
    cases i with
    | zero => simp [scenarioSeq]
    | succ j =>
      have hj : j < t.length := by simpa using hi
      cases j with
      | zero => simpa [scenarioSeq] using ih (min (v + g) 100) 0 (by simpa using hj)
      | succ m =>
        have := ih (min (v + g) 100) (m + 1) (by simpa using hj)
        simpa [scenarioSeq] using this

end ScenarioLemmas

section GrowthLemmas

/-- One growth row per consecutive pair. -/
lemma growthRows_length : ∀ l : List (ℤ × ℚ), (growthRows l).length = l.length - 1 := by
  intro l
  induction l with
  | nil => rfl
  | cons p0 rest ih =>
    cases rest with
    | nil => rfl
    | cons p1 rest2 =>
      simp only [growthRows, List.length_cons] at ih ⊢
      omega

/-- A short list yields no growth rows. -/
lemma growthRows_eq_nil (l : List (ℤ × ℚ)) (h : l.length ≤ 1) : growthRows l = [] := by
  cases l with
  | nil => rfl
  | cons p rest =>
    cases rest with
    | nil => rfl
    | cons q rest2 => simp at h

/-- The i-th growth row is built from the i-th and (i+1)-th pairs. -/
lemma growthRows_getD (d : GrowthRow) :
    ∀ (l : List (ℤ × ℚ)) (i : ℕ), i + 1 < l.length →
      (growthRows l).getD i d
        = mkGrowthRow (l.getD i (0, 0)).1 (l.getD (i + 1) (0, 0)).1
            (l.getD i (0, 0)).2 (l.getD (i + 1) (0, 0)).2 := by
  intro l
  induction l with
  | nil => intro i hi; simp at hi
  | cons p0 rest ih =>
    intro i hi
    cases rest with
    | nil => simp at hi
    | cons p1 rest2 =>
      cases i with
      | zero => simp [growthRows]
      | succ j =>
        have hj : j + 1 < (p1 :: rest2).length := by simpa using hi
        simpa [growthRows] using ih j hj

/-- Positions of a zip read back the positions of both lists. -/
lemma zip_getD (x : List ℤ) (y : List ℚ) :
    ∀ (i : ℕ), i < x.length → i < y.length →
      (x.zip y).getD i (0, 0) = (x.getD i 0, y.getD i 0) := by
  induction x generalizing y with
  | nil => intro i hi _; simp at hi
  | cons a t ih =>
    intro i hi hi2
    cases y with
    | nil => simp at hi2
    | cons b u =>
      cases i with
      | zero => rfl
      | succ j =>
        have h1 : j < t.length := by simpa using hi
        have h2 : j < u.length := by simpa using hi2
        simpa [List.zip_cons_cons] using ih u j h1 h2

end GrowthLemmas

section ScenarioForecastLemmas

/-- Unfolding of `scenario_forecast` with an explicit scenario list. -/
lemma scenario_forecast_some (cv tv : ℚ) (ty cy : ℤ) (scens : List (String × ℚ)) :
    scenario_forecast cv tv ty cy (some scens)
      = scens.foldl
          (fun results p =>
            dictInsert p.1
              (PyVal.floats (scenarioSeq p.2 cv (pyRange (cy + 1) (ty + 1)))) results)
          [("years", PyVal.ints (pyRange (cy + 1) (ty + 1)))] := rfl

end ScenarioForecastLemmas

/-- C2: for every current value, scenario mapping and horizon
`current_year < target_year`, each scenario key of the result maps to the
sequence over the years `current_year+1 .. target_year` in which each
value is `min(previous value + growth, 100)` starting from the current
value; in particular one step from 98 with growth 4.0 yields exactly 100,
and from 49 with base growth 2.5 over 2025-2027 the base sequence is
[51.5, 54.0, 56.5] for years [2025, 2026, 2027]. -/
theorem c2_scenario_forecast (cv tv : ℚ) (ty cy : ℤ) (scens : List (String × ℚ))
    (hlt : cy < ty) (hnd : (scens.map Prod.fst).Nodup) :
    ((∀ k : ℤ, k ∈ pyRange (cy + 1) (ty + 1) ↔ cy + 1 ≤ k ∧ k ≤ ty) ∧
     (∀ p ∈ scens,
        dictLookup p.1 (scenario_forecast cv tv ty cy (some scens))
          = some (PyVal.floats (scenarioSeq p.2 cv (pyRange (cy + 1) (ty + 1)))) ∧
        (scenarioSeq p.2 cv (pyRange (cy + 1) (ty + 1))).length
          = (pyRange (cy + 1) (ty + 1)).length ∧
        ∀ i, i < (pyRange (cy + 1) (ty + 1)).length →
          (scenarioSeq p.2 cv (pyRange (cy + 1) (ty + 1))).getD i 0
            = min ((if i = 0 then cv
                else (scenarioSeq p.2 cv (pyRange (cy + 1) (ty + 1))).getD (i - 1) 0) + p.2)
                100)) ∧
    dictLookup "s" (scenario_forecast 98 100 2025 2024 (some [("s", 4)]))
      = some (PyVal.floats [100]) ∧
    dictLookup "base" (scenario_forecast 49 60 2027 2024 (some [("base", 2.5)]))
      = some (PyVal.floats [51.5, 54.0, 56.5]) ∧
    dictLookup "years" (scenario_forecast 49 60 2027 2024 (some [("base", 2.5)]))
      = some (PyVal.ints [2025, 2026, 2027]) := by
  refine ⟨⟨?_, ?_⟩, ?_, ?_, ?_⟩
  · intro k
    rw [pyRange_mem]
    omega
  · intro p hp
    refine ⟨?_, scenarioSeq_length p.2 cv _, fun i hi => scenarioSeq_getD p.2 cv _ i hi⟩
    rw [scenario_forecast_some]
    exact lookup_foldl_mem
      (fun q => PyVal.floats (scenarioSeq q.2 cv (pyRange (cy + 1) (ty + 1))))
      scens _ hnd p hp
  · norm_num [scenario_forecast, pyRange, dictInsert, dictLookup, scenarioSeq, min_def]
    intro h
    exact absurd h (by decide)
  · norm_num [scenario_forecast, pyRange, dictInsert, dictLookup, scenarioSeq, min_def]
    intro h
    exact absurd h (by decide)
  · norm_num [scenario_forecast, pyRange, dictInsert, dictLookup, scenarioSeq, min_def]
    decide

/-- Witness for C2 at a concrete input. -/
theorem c2_witness :
    ((2024 : ℤ) < 2026 ∧ ((([("base", (1 : ℚ))]).map Prod.fst).Nodup)) ∧
    dictLookup "base" (scenario_forecast 0 60 2026 2024 (some [("base", 1)]))
      = some (PyVal.floats (scenarioSeq 1 0 (pyRange 2025 2027))) :=
  ⟨⟨by decide, by decide⟩,
    ((c2_scenario_forecast 0 60 2026 2024 [("base", 1)] (by decide)
      (by decide)).1.2 ("base", 1) (by simp)).1⟩

/-- C6: on time-ordered data of n points with strictly increasing years,
`calculate_growth_rates` returns exactly n-1 rows, one per consecutive
pair, with `period_years` the year span, `total_growth_pp` the value
change, and `annual_growth_pp` their quotient. -/
theorem c6_growth_rates_rows (years : List ℤ) (values : List ℚ)
    (hlen : years.length = values.length) (h2 : 2 ≤ years.length)
    (hinc : years.Chain' (fun a b => a < b)) :
    ∃ rows, calculate_growth_rates years values = some rows ∧
      rows.length = years.length - 1 ∧
      ∀ i, i < rows.length →
        (rows.getD i (mkGrowthRow 0 0 0 0)).period_start = years.getD i 0 ∧
        (rows.getD i (mkGrowthRow 0 0 0 0)).period_end = years.getD (i + 1) 0 ∧
        (rows.getD i (mkGrowthRow 0 0 0 0)).start_value = values.getD i 0 ∧
        (rows.getD i (mkGrowthRow 0 0 0 0)).end_value = values.getD (i + 1) 0 ∧
        (rows.getD i (mkGrowthRow 0 0 0 0)).period_years
          = (rows.getD i (mkGrowthRow 0 0 0 0)).period_end
            - (rows.getD i (mkGrowthRow 0 0 0 0)).period_start ∧
        (rows.getD i (mkGrowthRow 0 0 0 0)).total_growth_pp
          = (rows.getD i (mkGrowthRow 0 0 0 0)).end_value
            - (rows.getD i (mkGrowthRow 0 0 0 0)).start_value ∧
        (rows.getD i (mkGrowthRow 0 0 0 0)).annual_growth_pp
          = (rows.getD i (mkGrowthRow 0 0 0 0)).total_growth_pp
            / (((rows.getD i (mkGrowthRow 0 0 0 0)).period_years : ℤ) : ℚ) := by
  have hcond : ¬(2 ≤ years.length ∧ values.length < years.length) := by omega
  have hziplen : (years.zip values).length = years.length := by
    rw [List.length_zip]
    omega
  refine ⟨growthRows (years.zip values), ?_, ?_, ?_⟩
  · rw [calculate_growth_rates, if_neg hcond]
  · rw [growthRows_length, hziplen]
  · intro i hi
    rw [growthRows_length, hziplen] at hi
    have hi2 : i + 1 < (years.zip values).length := by omega
    rw [growthRows_getD _ _ i hi2,
      zip_getD years values i (by omega) (by omega),
      zip_getD years values (i + 1) (by omega) (by omega)]
    simp [mkGrowthRow]

/-- Witness for C6 at a concrete input. -/
theorem c6_witness :
    (([2020, 2022] : List ℤ).length = ([10, 20] : List ℚ).length ∧
      2 ≤ ([2020, 2022] : List ℤ).length ∧
      ([2020, 2022] : List ℤ).Chain' (fun a b => a < b)) ∧
    ∃ rows, calculate_growth_rates [2020, 2022] [10, 20] = some rows ∧
      rows.length = ([2020, 2022] : List ℤ).length - 1 ∧
      ∀ i, i < rows.length →
        (rows.getD i (mkGrowthRow 0 0 0 0)).period_start
          = ([2020, 2022] : List ℤ).getD i 0 ∧
        (rows.getD i (mkGrowthRow 0 0 0 0)).period_end
          = ([2020, 2022] : List ℤ).getD (i + 1) 0 ∧
        (rows.getD i (mkGrowthRow 0 0 0 0)).start_value
          = ([10, 20] : List ℚ).getD i 0 ∧
        (rows.getD i (mkGrowthRow 0 0 0 0)).end_value
          = ([10, 20] : List ℚ).getD (i + 1) 0 ∧
        (rows.getD i (mkGrowthRow 0 0 0 0)).period_years
          = (rows.getD i (mkGrowthRow 0 0 0 0)).period_end
            - (rows.getD i (mkGrowthRow 0 0 0 0)).period_start ∧
        (rows.getD i (mkGrowthRow 0 0 0 0)).total_growth_pp
          = (rows.getD i (mkGrowthRow 0 0 0 0)).end_value
            - (rows.getD i (mkGrowthRow 0 0 0 0)).start_value ∧
        (rows.getD i (mkGrowthRow 0 0 0 0)).annual_growth_pp
          = (rows.getD i (mkGrowthRow 0 0 0 0)).total_growth_pp
            / (((rows.getD i (mkGrowthRow 0 0 0 0)).period_years : ℤ) : ℚ) :=
  ⟨⟨by decide, by decide, by norm_num [List.chain'_cons]⟩,
    c6_growth_rates_rows [2020, 2022] [10, 20] (by decide) (by decide)
      (by norm_num [List.chain'_cons])⟩

/-- C7: when `target_year <= current_year`, the forecast year list is
empty, every entry of the result dict (the years entry and every scenario
entry) is an empty list, and the result still contains a years entry; no
error is raised (the embedded function is total). -/
theorem c7_scenario_empty_horizon (cv tv : ℚ) (ty cy : ℤ)
    (scens : List (String × ℚ)) (h : ty ≤ cy) :
    pyRange (cy + 1) (ty + 1) = [] ∧
    (∀ p ∈ scenario_forecast cv tv ty cy (some scens), p.2.isEmptyList) ∧
    (dictLookup "years" (scenario_forecast cv tv ty cy (some scens))).isSome = true := by
  have hrange : pyRange (cy + 1) (ty + 1) = [] := pyRange_eq_nil _ _ (by omega)
  refine ⟨hrange, ?_, ?_⟩
  · intro p hp
    rw [scenario_forecast_some] at hp
    rcases mem_foldl
        (fun q => PyVal.floats (scenarioSeq q.2 cv (pyRange (cy + 1) (ty + 1))))
        scens _ p hp with hinit | ⟨q, _, rfl⟩
    · have : p = ("years", PyVal.ints (pyRange (cy + 1) (ty + 1))) := by simpa using hinit
      rw [this]
      simp [PyVal.isEmptyList, hrange]
    · simp [PyVal.isEmptyList, hrange, scenarioSeq]
  · rw [scenario_forecast_some]
    apply lookup_isSome_foldl
    simp [dictLookup]

/-- Witness for C7 at a concrete input. -/
theorem c7_witness :
    ((2024 : ℤ) ≤ 2024) ∧
    (pyRange 2025 2025 = [] ∧
     (∀ p ∈ scenario_forecast 49 60 2024 2024 (some [("base", 2.5)]), p.2.isEmptyList) ∧
     (dictLookup "years" (scenario_forecast 49 60 2024 2024 (some [("base", 2.5)]))).isSome
       = true) :=
  ⟨by decide, c7_scenario_empty_horizon 49 60 2024 2024 [("base", 2.5)] (by decide)⟩

/-- C9 counterexample: with fewer than 2 points `calculate_growth_rates`
does not raise (it is not `none`, which models a raised exception); it
returns an empty table. -/
theorem c9_counterexample :
    calculate_growth_rates [2020] [50] ≠ none ∧
    calculate_growth_rates [2020] [50] = some [] ∧
    calculate_growth_rates [] [] = some [] := by
  refine ⟨?_, ?_, ?_⟩ <;> decide

/-- C9 amended: calling `calculate_growth_rates` with fewer than 2
(year, value) pairs returns an empty table (zero rows) rather than
signaling an error. -/
theorem c9_growth_rates_short_input (years : List ℤ) (values : List ℚ)
    (h : years.length < 2) : calculate_growth_rates years values = some [] := by
  have hcond : ¬(2 ≤ years.length ∧ values.length < years.length) := by omega
  rw [calculate_growth_rates, if_neg hcond]
  congr 1
  exact growthRows_eq_nil _ (by rw [List.length_zip]; omega)

/-- Witness for the amended C9 at a concrete input. -/
theorem c9_witness :
    ([2020] : List ℤ).length < 2 ∧ calculate_growth_rates [2020] [] = some [] :=
  ⟨by decide, c9_growth_rates_short_input [2020] [] (by decide)⟩

/-- C10: with scenario keys pairwise distinct and none equal to "years",
the result dict has exactly one entry per scenario plus the years entry,
and every scenario's sequence has the same length as the years list; a
scenario literally named "years" silently overwrites the forecast-year
entry with its own value sequence. -/
theorem c10_scenario_result_shape (cv tv : ℚ) (ty cy : ℤ) (scens : List (String × ℚ))
    (hnd : (scens.map Prod.fst).Nodup) :
    ((∀ k ∈ scens.map Prod.fst, k ≠ "years") →
      (scenario_forecast cv tv ty cy (some scens)).length = scens.length + 1 ∧
      ∀ p ∈ scens, ∃ l : List ℚ,
        dictLookup p.1 (scenario_forecast cv tv ty cy (some scens))
          = some (PyVal.floats l) ∧
        l.length = (pyRange (cy + 1) (ty + 1)).length) ∧
    ∀ g : ℚ, ("years", g) ∈ scens →
      dictLookup "years" (scenario_forecast cv tv ty cy (some scens))
        = some (PyVal.floats (scenarioSeq g cv (pyRange (cy + 1) (ty + 1)))) := by
  constructor
  · intro hnot
    constructor
    · rw [scenario_forecast_some,
        length_foldl
          (fun q => PyVal.floats (scenarioSeq q.2 cv (pyRange (cy + 1) (ty + 1))))
          scens _ hnd (by intro k hk; simpa using hnot k hk)]
      simp [Nat.add_comm]
    · intro p hp
      refine ⟨scenarioSeq p.2 cv (pyRange (cy + 1) (ty + 1)), ?_,
        scenarioSeq_length p.2 cv _⟩
      rw [scenario_forecast_some]
      exact lookup_foldl_mem
        (fun q => PyVal.floats (scenarioSeq q.2 cv (pyRange (cy + 1) (ty + 1))))
        scens _ hnd p hp
  · intro g hg
    rw [scenario_forecast_some]
    exact lookup_foldl_mem
      (fun q => PyVal.floats (scenarioSeq q.2 cv (pyRange (cy + 1) (ty + 1))))
      scens _ hnd ("years", g) hg

/-- Witness for C10, applying the theorem to a scenario set with a fresh
key and to one whose key is literally "years". -/
theorem c10_witness :
    ((([("a", (1 : ℚ))]).map Prod.fst).Nodup ∧
      ((∀ k ∈ ([("a", (1 : ℚ))]).map Prod.fst, k ≠ "years") →
        (scenario_forecast 0 60 2026 2024 (some [("a", 1)])).length = 1 + 1 ∧
        ∀ p ∈ [("a", (1 : ℚ))], ∃ l : List ℚ,
          dictLookup p.1 (scenario_forecast 0 60 2026 2024 (some [("a", 1)]))
            = some (PyVal.floats l) ∧
          l.length = (pyRange 2025 2027).length)) ∧
    dictLookup "years" (scenario_forecast 0 60 2026 2024 (some [("years", 3)]))
      = some (PyVal.floats (scenarioSeq 3 0 (pyRange 2025 2027))) :=
  ⟨⟨by decide, (c10_scenario_result_shape 0 60 2026 2024 [("a", 1)] (by decide)).1⟩,
    (c10_scenario_result_shape 0 60 2026 2024 [("years", 3)] (by decide)).2 3 (by simp)⟩

/-- C4 counterexample: called with exactly one historical point, or with
all (two) historical years identical, both fitters return a value
(`isSome`), i.e. neither call signals an error: numpy only emits a
RankWarning, which the module suppresses, and the degenerate arithmetic
produces non-finite numbers rather than an exception. -/
theorem c4_counterexample :
    (linear_trend_forecast [2020] [50] [2025]).isSome = true ∧
    (linear_trend_forecast [2020, 2020] [50, 60] [2025]).isSome = true ∧
    (log_trend_forecast [2020] [50] [2025]).isSome = true ∧
    (log_trend_forecast [2020, 2020] [50, 60] [2025]).isSome = true := by
  refine ⟨?_, ?_, ?_, ?_⟩ <;> rfl

/-- C4 amended: calling `linear_trend_forecast` or `log_trend_forecast`
with exactly 1 historical point, or with all historical years identical
(and values of matching length), returns a (numerically degenerate)
result triple rather than signaling an error. -/
theorem c4_degenerate_returns_result (years : List ℤ) (values : List ℝ) (fys : List ℤ)
    (hlen : years.length = values.length)
    (hdeg : years.length = 1 ∨ (years ≠ [] ∧ ∀ a ∈ years, ∀ b ∈ years, a = b)) :
    (linear_trend_forecast years values fys).isSome = true ∧
    (log_trend_forecast years values fys).isSome = true := by
  have hne : years ≠ [] := by
    rcases hdeg with h | h
    · intro hnil; rw [hnil] at h; simp at h
    · exact h.1
  constructor
  · rw [linear_eq years values fys hne hlen]; rfl
  · rw [log_eq years values fys hne hlen]; rfl

/-- Witness for the amended C4 at a one-point input. -/
theorem c4_witness :
    (([2020] : List ℤ).length = ([50] : List ℝ).length ∧
      (([2020] : List ℤ).length = 1 ∨
        (([2020] : List ℤ) ≠ [] ∧ ∀ a ∈ ([2020] : List ℤ), ∀ b ∈ ([2020] : List ℤ), a = b))) ∧
    (linear_trend_forecast [2020] [50] [2025, 2026]).isSome = true ∧
    (log_trend_forecast [2020] [50] [2025, 2026]).isSome = true :=
  ⟨⟨rfl, Or.inl rfl⟩,
    c4_degenerate_returns_result [2020] [50] [2025, 2026] rfl (Or.inl rfl)⟩

/-- C3: for every valid input (at least 2 points, two distinct years,
matching lengths), both fitters return bounds with
`lower[i] <= forecast[i] <= upper[i]` at every forecast index. -/
theorem c3_bounds_ordering (years : List ℤ) (values : List ℝ) (fys : List ℤ)
    (hlen : years.length = values.length) (h2 : 2 ≤ years.length)
    (hdist : ∃ a ∈ years, ∃ b ∈ years, a ≠ b) :
    (∃ f lo hi, linear_trend_forecast years values fys = some (f, lo, hi) ∧
      List.Forall₂ (fun u v => u ≤ v) lo f ∧ List.Forall₂ (fun u v => u ≤ v) f hi) ∧
    (∃ f lo hi, log_trend_forecast years values fys = some (f, lo, hi) ∧
      List.Forall₂ (fun u v => u ≤ v) lo f ∧ List.Forall₂ (fun u v => u ≤ v) f hi) := by
  have hne : years ≠ [] := by
    intro h
    rw [h] at h2
    simp at h2
  constructor
  · refine ⟨_, _, _, linear_eq years values fys hne hlen, ?_, ?_⟩
    · exact forall₂_map_sub_le _ (linMargin years values)
        (linMargin_nonneg years values) fys
    · exact forall₂_map_le_add _ (linMargin years values)
        (linMargin_nonneg years values) fys
  · refine ⟨_, _, _, log_eq years values fys hne hlen, ?_, ?_⟩
    · exact forall₂_map_sub_le _ (fun _ => logMargin years values)
        (fun _ => logMargin_nonneg years values) fys
    · exact forall₂_map_le_add _ (fun _ => logMargin years values)
        (fun _ => logMargin_nonneg years values) fys

/-- Witness for C3 at a concrete input. -/
theorem c3_witness :
    (([2020, 2021] : List ℤ).length = ([10, 20] : List ℝ).length ∧
      2 ≤ ([2020, 2021] : List ℤ).length ∧
      (∃ a ∈ ([2020, 2021] : List ℤ), ∃ b ∈ ([2020, 2021] : List ℤ), a ≠ b)) ∧
    ((∃ f lo hi, linear_trend_forecast [2020, 2021] [10, 20] [2025] = some (f, lo, hi) ∧
      List.Forall₂ (fun u v => u ≤ v) lo f ∧ List.Forall₂ (fun u v => u ≤ v) f hi) ∧
     (∃ f lo hi, log_trend_forecast [2020, 2021] [10, 20] [2025] = some (f, lo, hi) ∧
      List.Forall₂ (fun u v => u ≤ v) lo f ∧ List.Forall₂ (fun u v => u ≤ v) f hi)) :=
  ⟨⟨rfl, by decide, by decide⟩,
    c3_bounds_ordering [2020, 2021] [10, 20] [2025] rfl (by decide) (by decide)⟩

/-- C1: on valid input, `linear_trend_forecast` fits
`value = slope*year + intercept` by ordinary least squares (the returned
coefficients minimize the sum of squared errors over the historical
points), forecasts `slope*y + intercept` per forecast year, and returns
`(forecast, forecast - margin, forecast + margin)` where the margin is
`1.96 * std_error * sqrt(1 + 1/n + (y - mean(years))^2 /
sum((years - mean(years))^2))` with `std_error` the population standard
deviation (`npStd`) of the residuals (observed minus fitted). -/
theorem c1_linear_trend_forecast_ols (years : List ℤ) (values : List ℝ) (fys : List ℤ)
    (hlen : years.length = values.length) (h2 : 2 ≤ years.length)
    (hdist : ∃ a ∈ years, ∃ b ∈ years, a ≠ b) :
    ∃ slope intercept,
      polyfit1 (years.map (fun t : ℤ => (t : ℝ))) values = some (slope, intercept) ∧
      (∀ a b : ℝ, sse (years.map (fun t : ℤ => (t : ℝ))) values slope intercept
        ≤ sse (years.map (fun t : ℤ => (t : ℝ))) values a b) ∧
      linear_trend_forecast years values fys = some
        (fys.map (fun y : ℤ => slope * (y : ℝ) + intercept),
         fys.map (fun y : ℤ => slope * (y : ℝ) + intercept - linMargin years values y),
         fys.map (fun y : ℤ => slope * (y : ℝ) + intercept + linMargin years values y)) ∧
      (∀ y : ℤ, linMargin years values y
        = 1.96 * npStd (List.zipWith (fun a b => a - b) values
            (years.map (fun t : ℤ => slope * (t : ℝ) + intercept)))
          * Real.sqrt (1 + 1 / (years.length : ℝ)
              + ((y : ℝ) - npMean (years.map (fun t : ℤ => (t : ℝ)))) ^ 2
                / (years.map (fun t : ℤ =>
                    ((t : ℝ) - npMean (years.map (fun u : ℤ => (u : ℝ)))) ^ 2)).sum)) := by
  have hne : years ≠ [] := by
    intro h
    rw [h] at h2
    simp at h2
  have hxne : years.map (fun t : ℤ => (t : ℝ)) ≠ [] :=
    fun h => hne (List.map_eq_nil_iff.mp h)
  have hxlen : (years.map (fun t : ℤ => (t : ℝ))).length = values.length := by
    simpa using hlen
  have hd : ∃ i j, i < (years.map (fun t : ℤ => (t : ℝ))).length ∧
      j < (years.map (fun t : ℤ => (t : ℝ))).length ∧
      (years.map (fun t : ℤ => (t : ℝ))).getD i 0
        ≠ (years.map (fun t : ℤ => (t : ℝ))).getD j 0 := by
    obtain ⟨a, ha, b, hb, hab⟩ := hdist
    obtain ⟨i, hi, hia⟩ := List.mem_iff_getElem.mp ha
    obtain ⟨j, hj, hjb⟩ := List.mem_iff_getElem.mp hb
    refine ⟨i, j, by simpa using hi, by simpa using hj, ?_⟩
    rw [List.getD_eq_getElem _ _ (by simpa using hi),
      List.getD_eq_getElem _ _ (by simpa using hj),
      List.getElem_map, List.getElem_map, hia, hjb]
    exact_mod_cast hab
  exact ⟨pSlope (years.map (fun t : ℤ => (t : ℝ))) values,
    pIntercept (years.map (fun t : ℤ => (t : ℝ))) values,
    polyfit1_eq _ _ hxne hxlen,
    fun a b => sse_pfit_min _ _ hxlen hd a b,
    linear_eq years values fys hne hlen,
    fun y => rfl⟩

/-- Witness for C1 at a concrete input. -/
theorem c1_witness :
    (([2020, 2021] : List ℤ).length = ([10, 20] : List ℝ).length ∧
      2 ≤ ([2020, 2021] : List ℤ).length ∧
      (∃ a ∈ ([2020, 2021] : List ℤ), ∃ b ∈ ([2020, 2021] : List ℤ), a ≠ b)) ∧
    (∃ slope intercept,
      polyfit1 ([2020, 2021].map (fun t : ℤ => (t : ℝ))) [10, 20] = some (slope, intercept) ∧
      (∀ a b : ℝ, sse ([2020, 2021].map (fun t : ℤ => (t : ℝ))) [10, 20] slope intercept
        ≤ sse ([2020, 2021].map (fun t : ℤ => (t : ℝ))) [10, 20] a b) ∧
      linear_trend_forecast [2020, 2021] [10, 20] [2025] = some
        ([2025].map (fun y : ℤ => slope * (y : ℝ) + intercept),
         [2025].map (fun y : ℤ => slope * (y : ℝ) + intercept
           - linMargin [2020, 2021] [10, 20] y),
         [2025].map (fun y : ℤ => slope * (y : ℝ) + intercept
           + linMargin [2020, 2021] [10, 20] y)) ∧
      (∀ y : ℤ, linMargin [2020, 2021] [10, 20] y
        = 1.96 * npStd (List.zipWith (fun a b => a - b) [10, 20]
            ([2020, 2021].map (fun t : ℤ => slope * (t : ℝ) + intercept)))
          * Real.sqrt (1 + 1 / (([2020, 2021] : List ℤ).length : ℝ)
              + ((y : ℝ) - npMean ([2020, 2021].map (fun t : ℤ => (t : ℝ)))) ^ 2
                / ([2020, 2021].map (fun t : ℤ =>
                    ((t : ℝ) - npMean ([2020, 2021].map (fun u : ℤ => (u : ℝ)))) ^ 2)).sum))) :=
  ⟨⟨rfl, by decide, by decide⟩,
    c1_linear_trend_forecast_ols [2020, 2021] [10, 20] [2025] rfl (by decide) (by decide)⟩

section MinLemmas

/-- A running minimum is at most its seed. -/
lemma foldl_min_le_init : ∀ (l : List ℤ) (a : ℤ), l.foldl min a ≤ a := by
  intro l
  induction l with
  | nil => intro a; exact le_refl a
  | cons x t ih =>
    intro a
    calc (x :: t).foldl min a = t.foldl min (min a x) := rfl
    _ ≤ min a x := ih (min a x)
    _ ≤ a := min_le_left a x

/-- A running minimum is at most every element. -/
lemma foldl_min_le_mem : ∀ (l : List ℤ) (a x : ℤ), x ∈ l → l.foldl min a ≤ x := by
  intro l
  induction l with
  | nil => intro a x hx; exact absurd hx (List.not_mem_nil x)
  | cons y t ih =>
    intro a x hx
    rcases List.mem_cons.mp hx with h | h
    · subst h
      calc (x :: t).foldl min a = t.foldl min (min a x) := rfl
      _ ≤ min a x := foldl_min_le_init t (min a x)
      _ ≤ x := min_le_right a x
    · exact ih (min a y) x h

/-- A running minimum is its seed or one of the elements. -/
lemma foldl_min_mem : ∀ (l : List ℤ) (a : ℤ), l.foldl min a = a ∨ l.foldl min a ∈ l := by
  intro l
  induction l with
  | nil => intro a; exact Or.inl rfl
  | cons x t ih =>
    intro a
    rcases ih (min a x) with h | h
    · rcases min_cases a x with ⟨hm, _⟩ | ⟨hm, _⟩
      · exact Or.inl (by rw [List.foldl_cons, h, hm])
      · exact Or.inr (by rw [List.foldl_cons, h, hm]; exact List.mem_cons_self x t)
    · exact Or.inr (List.mem_cons_of_mem x h)

/-- The base year of the log transform belongs to the (nonempty) year
list and is a lower bound of it: it is `min(years)`. -/
lemma logBase_min (years : List ℤ) (hne : years ≠ []) :
    logBase years ∈ years ∧ ∀ t ∈ years, logBase years ≤ t := by
  cases years with
  | nil => exact absurd rfl hne
  | cons y0 ytl =>
    constructor
    · rcases foldl_min_mem ytl y0 with h | h
      · exact List.mem_cons.mpr (Or.inl (by rw [logBase, minYear, h]))
      · exact List.mem_cons.mpr (Or.inr (by rw [logBase, minYear]; exact h))
    · intro t ht
      rcases List.mem_cons.mp ht with h | h
      · rw [h, logBase, minYear]
        exact foldl_min_le_init ytl y0
      · rw [logBase, minYear]
        exact foldl_min_le_mem ytl y0 t h

/-- The log-time transform is injective on years at or above the base
year. -/
lemma logT_inj (b t1 t2 : ℤ) (h1 : b ≤ t1) (h2 : b ≤ t2) (hne : t1 ≠ t2) :
    logT b t1 ≠ logT b t2 := by
  have hc1 : (b : ℝ) ≤ (t1 : ℝ) := by exact_mod_cast h1
  have hc2 : (b : ℝ) ≤ (t2 : ℝ) := by exact_mod_cast h2
  have hu1 : (0 : ℝ) < 1 + ((t1 : ℝ) - (b : ℝ) + 1) := by linarith
  have hu2 : (0 : ℝ) < 1 + ((t2 : ℝ) - (b : ℝ) + 1) := by linarith
  intro heq
  rw [logT, logT] at heq
  have harg : 1 + ((t1 : ℝ) - (b : ℝ) + 1) = 1 + ((t2 : ℝ) - (b : ℝ) + 1) := by
    have := congrArg Real.exp heq
    rwa [Real.exp_log hu1, Real.exp_log hu2] at this
  have : (t1 : ℝ) = (t2 : ℝ) := by linarith
  exact hne (by exact_mod_cast this)

end MinLemmas

/-- C5: on valid input, `log_trend_forecast` maps each historical year
`t` to `log(1 + (t - min_year) + 1)`, fits a first-degree polynomial of
value against this coordinate by least squares (the coefficients minimize
the sum of squared errors in transformed coordinates), evaluates the
fitted line at the identically transformed forecast years, and returns
bounds `forecast ± 1.96 * std_error` with the same fixed margin for every
forecast year. -/
theorem c5_log_trend_forecast (years : List ℤ) (values : List ℝ) (fys : List ℤ)
    (hlen : years.length = values.length) (h2 : 2 ≤ years.length)
    (hdist : ∃ a ∈ years, ∃ b ∈ years, a ≠ b) :
    (∀ t : ℤ, logT (logBase years) t
      = Real.log (1 + ((t : ℝ) - (logBase years : ℝ) + 1))) ∧
    (logBase years ∈ years ∧ ∀ t ∈ years, logBase years ≤ t) ∧
    ∃ slope intercept,
      polyfit1 (years.map (logT (logBase years))) values = some (slope, intercept) ∧
      (∀ a b : ℝ, sse (years.map (logT (logBase years))) values slope intercept
        ≤ sse (years.map (logT (logBase years))) values a b) ∧
      log_trend_forecast years values fys = some
        (fys.map (fun y => slope * logT (logBase years) y + intercept),
         fys.map (fun y => slope * logT (logBase years) y + intercept
           - logMargin years values),
         fys.map (fun y => slope * logT (logBase years) y + intercept
           + logMargin years values)) ∧
      logMargin years values = 1.96 * npStd (List.zipWith (fun a b => a - b) values
        ((years.map (logT (logBase years))).map (fun ly => slope * ly + intercept))) := by
  have hne : years ≠ [] := by
    intro h
    rw [h] at h2
    simp at h2
  have hbase := logBase_min years hne
  have hxne : years.map (logT (logBase years)) ≠ [] :=
    fun h => hne (List.map_eq_nil_iff.mp h)
  have hxlen : (years.map (logT (logBase years))).length = values.length := by
    simpa using hlen
  have hd : ∃ i j, i < (years.map (logT (logBase years))).length ∧
      j < (years.map (logT (logBase years))).length ∧
      (years.map (logT (logBase years))).getD i 0
        ≠ (years.map (logT (logBase years))).getD j 0 := by
    obtain ⟨a, ha, b, hb, hab⟩ := hdist
    obtain ⟨i, hi, hia⟩ := List.mem_iff_getElem.mp ha
    obtain ⟨j, hj, hjb⟩ := List.mem_iff_getElem.mp hb
    refine ⟨i, j, by simpa using hi, by simpa using hj, ?_⟩
    rw [List.getD_eq_getElem _ _ (by simpa using hi),
      List.getD_eq_getElem _ _ (by simpa using hj),
      List.getElem_map, List.getElem_map, hia, hjb]
    exact logT_inj (logBase years) a b (hbase.2 a ha) (hbase.2 b hb) hab
  refine ⟨fun t => rfl, hbase, pSlope (years.map (logT (logBase years))) values,
    pIntercept (years.map (logT (logBase years))) values,
    polyfit1_eq _ _ hxne hxlen,
    fun a b => sse_pfit_min _ _ hxlen hd a b,
    log_eq years values fys hne hlen, rfl⟩

/-- Witness for C5 at a concrete input. -/
theorem c5_witness :
    (([2020, 2021] : List ℤ).length = ([10, 20] : List ℝ).length ∧
      2 ≤ ([2020, 2021] : List ℤ).length ∧
      (∃ a ∈ ([2020, 2021] : List ℤ), ∃ b ∈ ([2020, 2021] : List ℤ), a ≠ b)) ∧
    ((∀ t : ℤ, logT (logBase [2020, 2021]) t
      = Real.log (1 + ((t : ℝ) - (logBase [2020, 2021] : ℝ) + 1))) ∧
    (logBase [2020, 2021] ∈ ([2020, 2021] : List ℤ) ∧
      ∀ t ∈ ([2020, 2021] : List ℤ), logBase [2020, 2021] ≤ t) ∧
    ∃ slope intercept,
      polyfit1 ([2020, 2021].map (logT (logBase [2020, 2021]))) [10, 20]
        = some (slope, intercept) ∧
      (∀ a b : ℝ,
        sse ([2020, 2021].map (logT (logBase [2020, 2021]))) [10, 20] slope intercept
          ≤ sse ([2020, 2021].map (logT (logBase [2020, 2021]))) [10, 20] a b) ∧
      log_trend_forecast [2020, 2021] [10, 20] [2025] = some
        ([2025].map (fun y => slope * logT (logBase [2020, 2021]) y + intercept),
         [2025].map (fun y => slope * logT (logBase [2020, 2021]) y + intercept
           - logMargin [2020, 2021] [10, 20]),
         [2025].map (fun y => slope * logT (logBase [2020, 2021]) y + intercept
           + logMargin [2020, 2021] [10, 20])) ∧
      logMargin [2020, 2021] [10, 20]
        = 1.96 * npStd (List.zipWith (fun a b => a - b) [10, 20]
            (([2020, 2021].map (logT (logBase [2020, 2021]))).map
              (fun ly => slope * ly + intercept)))) :=
  ⟨⟨rfl, by decide, by decide⟩,
    c5_log_trend_forecast [2020, 2021] [10, 20] [2025] rfl (by decide) (by decide)⟩

/-- C8: when the USG_DIGITAL_PAYMENT series has fewer than 2 observation
rows (and the ownership series is nonempty), the aggregator returns a
partial result containing only the ownership entry: the usage entry is
absent and no error is raised. -/
theorem c8_partial_aggregation (df : List DfRow) (fys : List ℤ)
    (hacc : 1 ≤ (obsSeries "ACC_OWNERSHIP" df).length)
    (husg : (obsSeries "USG_DIGITAL_PAYMENT" df).length < 2) :
    ∃ r, forecast_access_usage df fys = some r ∧ r.usage = none ∧
      r.access.code = "ACC_OWNERSHIP" ∧ r.access.indicator = "Account Ownership Rate" := by
  have hne : (obsSeries "ACC_OWNERSHIP" df).map (fun r => r.observation_date.year) ≠ [] := by
    intro h
    have hl := congrArg List.length h
    rw [List.length_map] at hl
    simp only [List.length_nil] at hl
    omega
  have hlen : ((obsSeries "ACC_OWNERSHIP" df).map (fun r => r.observation_date.year)).length
      = ((obsSeries "ACC_OWNERSHIP" df).map (fun r => r.value_numeric)).length := by
    simp
  simp only [forecast_access_usage]
  rw [linear_eq _ _ _ hne hlen, log_eq _ _ _ hne hlen]
  dsimp only
  rw [if_neg (by omega : ¬2 ≤ (obsSeries "USG_DIGITAL_PAYMENT" df).length)]
  exact ⟨_, rfl, rfl, rfl, rfl⟩

/-- Witness for C8 on a one-row dataset holding a single ownership
observation and no digital-payment rows. -/
theorem c8_witness :
    (1 ≤ (obsSeries "ACC_OWNERSHIP"
        [DfRow.mk "observation" "ACC_OWNERSHIP" (ObsDate.mk 2021 0) 46]).length ∧
      (obsSeries "USG_DIGITAL_PAYMENT"
        [DfRow.mk "observation" "ACC_OWNERSHIP" (ObsDate.mk 2021 0) 46]).length < 2) ∧
    ∃ r, forecast_access_usage
        [DfRow.mk "observation" "ACC_OWNERSHIP" (ObsDate.mk 2021 0) 46] [2025]
      = some r ∧ r.usage = none ∧
      r.access.code = "ACC_OWNERSHIP" ∧ r.access.indicator = "Account Ownership Rate" :=
  ⟨⟨by decide, by decide⟩,
    c8_partial_aggregation
      [DfRow.mk "observation" "ACC_OWNERSHIP" (ObsDate.mk 2021 0) 46] [2025]
      (by decide) (by decide)⟩

end Forecasting
